import Mathlib

/-!
Verification of the tool-execution sandbox of the ThreejsWizard repository.

The definitions below are a shallow embedding of `src/tools/ToolExecutor.ts`
and `src/tools/CodeValidator.ts`: path resolution follows the POSIX semantics
of the Node `path` module, the file system is modelled as a flat map from
absolute paths to file contents, and child-process execution is modelled by
an oracle mapping a spawn request to its outcome.
-/

namespace ThreejsWizard

/-! ## JavaScript string primitives

The embedded code manipulates JS strings; the methods it uses are modelled
here directly on the character lists of Lean strings, so that every
definition evaluates by kernel reduction.
-/

/-- JS `String.prototype.startsWith`. -/
def strStartsWith (s pre : String) : Bool :=
  pre.data.isPrefixOf s.data

/-- JS `String.prototype.endsWith`. -/
def strEndsWith (s suf : String) : Bool :=
  suf.data.isSuffixOf s.data

/-- The whitespace class stripped by JS `trim` (the characters occurring
in this code base). -/
def isWsChar (c : Char) : Bool :=
  c = ' ' ∨ c = '\t' ∨ c = '\n' ∨ c = '\r'

/-- JS `String.prototype.trim`. -/
def strTrim (s : String) : String :=
  String.mk (((s.data.dropWhile isWsChar).reverse.dropWhile isWsChar).reverse)

/-- JS `String.prototype.split` with a single-character separator (the only
form the code uses: pipe, slash, newline). -/
def splitOnChar (sep : Char) (s : String) : List String :=
  let r := s.data.foldl
    (fun (acc : List String × String) c =>
      if c = sep then (acc.1 ++ [acc.2], "") else (acc.1, acc.2.push c))
    ([], "")
  r.1 ++ [r.2]

/-- JS `String.prototype.slice(n)` for `n ≥ 0`, by character count. -/
def strDrop (s : String) (n : Nat) : String :=
  String.mk (s.data.drop n)

/-- The last `n` characters (JS `slice(-n)`). -/
def strTakeRight (s : String) (n : Nat) : String :=
  String.mk (s.data.drop (s.data.length - n))

/-- JS `String.prototype.toLowerCase` (ASCII). -/
def strToLower (s : String) : String :=
  String.mk (s.data.map Char.toLower)

/-! ## POSIX path model (Node `path.resolve` / `path.normalize`, `/` separator) -/

/-- Segment normalization shared by `path.resolve` and `path.normalize`:
drops empty and `.` segments, resolves `..` against the accumulated stack,
and keeps leading `..` segments only when `allowAbove` is set (relative
paths). The accumulator holds the processed segments in reverse order. -/
def normSegs (allowAbove : Bool) : List String → List String → List String
  | [], acc => acc.reverse
  | s :: rest, acc =>
    if s = "" ∨ s = "." then
      normSegs allowAbove rest acc
    else if s = ".." then
      match acc with
      | [] => if allowAbove then normSegs allowAbove rest [".."] else normSegs allowAbove rest []
      | top :: acc2 =>
        if top = ".." then
          if allowAbove then normSegs allowAbove rest (".." :: acc) else normSegs allowAbove rest acc
        else
          normSegs allowAbove rest acc2
    else
      normSegs allowAbove rest (s :: acc)

/-- Node `path.posix.resolve(wd, p)`: when `p` is absolute it is taken alone,
otherwise it is appended to `wd`; the combined string is then segment
normalized (with `..` clamped at the root for absolute paths). -/
def posixResolve (wd p : String) : String :=
  let combined := if strStartsWith p "/" then p else wd ++ "/" ++ p
  let abs := strStartsWith combined "/"
  let joined := String.intercalate "/" (normSegs (!abs) (splitOnChar '/' combined) [])
  if abs then
    if joined = "" then "/" else "/" ++ joined
  else
    if joined = "" then "." else joined

/-- Node `path.posix.normalize(p)`: segment normalization preserving a
trailing separator. -/
def posixNormalize (p : String) : String :=
  if p = "" then "." else
  let abs := strStartsWith p "/"
  let trail := strEndsWith p "/"
  let joined := String.intercalate "/" (normSegs (!abs) (splitOnChar '/' p) [])
  if abs then
    if joined = "" then "/" else "/" ++ joined ++ (if trail then "/" else "")
  else
    if joined = "" then (if trail then "./" else ".") else joined ++ (if trail then "/" else "")

/-- Error message of `ToolExecutor.validatePath`. -/
def traversalMsg (inputPath : String) : String :=
  "Path traversal not allowed: \"" ++ inputPath ++ "\" resolves outside working directory"

/-- `ToolExecutor.validatePath`: resolve the input against the working
directory, normalize, and require the normalized path to equal the working
directory or start with the working directory followed by the separator.
On success the resolved (pre-normalization) path is returned. -/
def validatePath (wd inputPath : String) : Except String String :=
  let fullPath := posixResolve wd inputPath
  let normalized := posixNormalize fullPath
  if ¬(strStartsWith normalized (wd ++ "/")) ∧ normalized ≠ wd then
    .error (traversalMsg inputPath)
  else
    .ok fullPath

/-! ## Command parsing (`ToolExecutor.parseCommand`, `tokenizeCommand`) -/

/-- The fixed allowlist `ALLOWED_COMMANDS`, in source order. -/
def ALLOWED_COMMANDS : List String :=
  [ "npm", "npx", "pnpm", "yarn", "bun",
    "node", "tsc", "vite", "esbuild", "rollup", "webpack",
    "git",
    "mkdir", "touch", "rm", "cp", "mv", "chmod", "ln",
    "cat", "ls", "pwd", "head", "tail", "wc", "file", "stat",
    "grep", "find", "sed", "awk", "sort", "uniq", "diff", "tr", "cut",
    "echo", "which", "whereis", "env", "basename", "dirname", "realpath",
    "tar", "zip", "unzip", "gzip", "gunzip",
    "jest", "vitest", "mocha", "playwright", "cypress" ]

/-- The character class of the regex `DANGEROUS_PATTERNS`:
semicolon, ampersand, backtick, dollar, parentheses, braces, square
brackets, angle brackets, exclamation mark and backslash. The pipe
character is deliberately absent. -/
def DANGEROUS_CHARS : List Char :=
  [';', '&', '\x60', '$', '(', ')', '\x7b', '\x7d', '[', ']', '<', '>', '!', '\x5c']

/-- `DANGEROUS_PATTERNS.test(cmdString)`: true when any character of the raw
string belongs to the denied class. -/
def hasDangerousChar (s : String) : Bool :=
  s.data.any (fun c => DANGEROUS_CHARS.contains c)

/-- Error message raised on a dangerous metacharacter. -/
def dangerousMsg : String := "Command contains dangerous shell metacharacters"

/-- Error message of the allowlist check, naming the offending command and
listing the full allowed set. -/
def notAllowedMsg (c : String) : String :=
  "Command not allowed: " ++ c ++ ". Allowed commands: " ++
    String.intercalate ", " ALLOWED_COMMANDS

/-- Loop body of `ToolExecutor.tokenizeCommand`: walks the characters
carrying the open-quote state, the current token and the tokens emitted so
far. A space or tab outside quotes ends the current token; a quote character
toggles quoting without ending the token; end of input inside a quote is the
unclosed-quote error. -/
def tokenizeLoop : List Char → Option Char → String → List String → Except String (List String)
  | [], some _, _, _ => .error "Unclosed quote in command"
  | [], none, current, tokens =>
    .ok (if current ≠ "" then tokens ++ [current] else tokens)
  | c :: rest, some q, current, tokens =>
    if c = q then tokenizeLoop rest none current tokens
    else tokenizeLoop rest (some q) (current.push c) tokens
  | c :: rest, none, current, tokens =>
    if c = '"' ∨ c = '\x27' then tokenizeLoop rest (some c) current tokens
    else if c = ' ' ∨ c = '\t' then
      if current ≠ "" then tokenizeLoop rest none "" (tokens ++ [current])
      else tokenizeLoop rest none current tokens
    else tokenizeLoop rest none (current.push c) tokens

/-- `ToolExecutor.tokenizeCommand`: splits one pipe-free command into tokens
respecting single and double quotes. -/
def tokenizeCommand (cmdString : String) : Except String (List String) :=
  tokenizeLoop cmdString.data none "" []

/-- The pipe segments of a command string: split on the pipe character, trim
each piece, and keep only the non-empty pieces. -/
def pipeSegs (cmdString : String) : List String :=
  ((splitOnChar '|' cmdString).map strTrim).filter (fun s => s ≠ "")

/-- The per-segment validation loop of `parseCommand`: each segment is
tokenized, must be non-empty, and its first token must be allowlisted; the
validated segments are accumulated into the pipe chain in order. -/
def validateSegments : List String → List String → Except String (List String)
  | [], pipeChain => .ok pipeChain
  | seg :: rest, pipeChain =>
    match tokenizeCommand seg with
    | .error e => .error e
    | .ok [] => .error "Empty command in pipeline"
    | .ok (t :: _) =>
      if ALLOWED_COMMANDS.contains t then validateSegments rest (pipeChain ++ [seg])
      else .error (notAllowedMsg t)

/-- Result of `ToolExecutor.parseCommand`. -/
structure ParsedCommand where
  cmd : String
  args : List String
  isPiped : Bool
  pipeChain : List String
  deriving Repr, DecidableEq

/-- `ToolExecutor.parseCommand`: scan the raw string for dangerous
metacharacters, split it into pipe segments, validate every segment against
the allowlist, and take the executable and argument vector from the first
segment. An all-pipe or all-blank command leaves no segment at all; indexing
the missing first segment is a runtime type error in the source, modelled by
an error result. -/
def parseCommand (cmdString : String) : Except String ParsedCommand :=
  if hasDangerousChar cmdString then .error dangerousMsg
  else
    let pipeSegments := pipeSegs cmdString
    let isPiped := decide (pipeSegments.length > 1)
    match validateSegments pipeSegments [] with
    | .error e => .error e
    | .ok pipeChain =>
      match pipeSegments with
      | [] => .error "Cannot read properties of undefined (reading \x27length\x27)"
      | s0 :: _ =>
        match tokenizeCommand s0 with
        | .error e => .error e
        | .ok [] => .ok ⟨"", [], isPiped, pipeChain⟩
        | .ok (t :: ts) => .ok ⟨t, ts, isPiped, pipeChain⟩

/-! ## Untrusted structured payloads (the shape of model-supplied tool input) -/

/-- A JavaScript-like structured value: the raw, untrusted payload handed to
`execute`. Numbers carry their lexeme, since only their string rendering is
ever observed by the embedded code. -/
inductive JsonValue where
  | null
  | bool (b : Bool)
  | num (lexeme : String)
  | str (s : String)
  | arr (items : List JsonValue)
  | obj (fields : List (String × JsonValue))
  deriving Repr

/-- JavaScript `String(v)` coercion on structured values. -/
def jsToString : JsonValue → String
  | .null => "null"
  | .bool true => "true"
  | .bool false => "false"
  | .num lexeme => lexeme
  | .str s => s
  | .arr items => String.intercalate "," (items.attach.map (fun x => jsToString x.1))
  | .obj _ => "[object Object]"
  decreasing_by
    cases x
    rename_i v hv
    have h := List.sizeOf_lt_of_mem hv
    simp
    omega

/-- JSON string escaping used by `JSON.stringify` (common escapes). -/
def jsonEscape (s : String) : String :=
  s.data.foldl (fun acc c =>
    if c = '"' then acc ++ "\x5c\""
    else if c = '\x5c' then acc ++ "\x5c\x5c"
    else if c = '\n' then acc ++ "\x5cn"
    else if c = '\t' then acc ++ "\x5ct"
    else if c = '\r' then acc ++ "\x5cr"
    else acc.push c) ""

/-- `JSON.stringify(v, null, 2)`: pretty printing with two-space
indentation, as used by the `write_file` content coercion fallback. -/
def jsonStringify (indent : Nat) : JsonValue → String
  | .null => "null"
  | .bool true => "true"
  | .bool false => "false"
  | .num lexeme => lexeme
  | .str s => "\"" ++ jsonEscape s ++ "\""
  | .arr [] => "[]"
  | .arr (x :: xs) =>
    let pad := String.mk (List.replicate (indent + 2) ' ')
    let closePad := String.mk (List.replicate indent ' ')
    "[\n" ++ String.intercalate ",\n"
      ((x :: xs).attach.map (fun v => pad ++ jsonStringify (indent + 2) v.1)) ++
      "\n" ++ closePad ++ "]"
  | .obj [] => "\x7b\x7d"
  | .obj (f :: fs) =>
    let pad := String.mk (List.replicate (indent + 2) ' ')
    let closePad := String.mk (List.replicate indent ' ')
    "\x7b\n" ++ String.intercalate ",\n"
      ((f :: fs).attach.map (fun kv =>
        pad ++ "\"" ++ jsonEscape kv.1.1 ++ "\": " ++ jsonStringify (indent + 2) kv.1.2)) ++
      "\n" ++ closePad ++ "\x7d"
  termination_by v => sizeOf v
  decreasing_by
    · cases v
      rename_i vv hv
      have h := List.sizeOf_lt_of_mem hv
      simp at h ⊢
      omega
    · cases kv
      rename_i kvv hkv
      have h := List.sizeOf_lt_of_mem hkv
      have h2 : sizeOf kvv.2 < sizeOf kvv := by cases kvv; simp
      simp at h ⊢
      omega

/-- Field access `obj.k` on a structured value: `none` models `undefined`. -/
def getField (v : JsonValue) (k : String) : Option JsonValue :=
  match v with
  | .obj fields => (fields.find? (fun f => f.1 = k)).map (fun f => f.2)
  | _ => none

/-- The guard `!input || typeof input !== 'object'` of the input
validators: only truthy values of object type pass, i.e. objects and
arrays (`null` is falsy despite having object type). -/
def isObjectLike : JsonValue → Bool
  | .obj _ => true
  | .arr _ => true
  | _ => false

/-! ## Syntax validation (`CodeValidator.ts`) -/

/-- Result of the syntax validator. -/
structure ValidationResult where
  valid : Bool
  errors : List String
  warnings : List String
  deriving Repr, DecidableEq

/-- The `pairs` record of `checkBalancedDelimiters`: opener to closer. -/
def pairs (c : Char) : Option Char :=
  if c = '\x7b' then some '\x7d'
  else if c = '[' then some ']'
  else if c = '(' then some ')'
  else none

/-- The `closers` record of `checkBalancedDelimiters`: closer to opener. -/
def closers (c : Char) : Option Char :=
  if c = '\x7d' then some '\x7b'
  else if c = ']' then some '['
  else if c = ')' then some '('
  else none

/-- Message for a closer met with an empty stack. -/
def unexpectedMsg (c : Char) (line : Nat) (expected : Char) : String :=
  "Unexpected \x27" ++ c.toString ++ "\x27 at line " ++ toString line ++
    " - no matching \x27" ++ expected.toString ++ "\x27"

/-- Message for a closer that does not match the top of the stack. -/
def mismatchMsg (needed opened : Char) (openLine : Nat) (found : Char) (line : Nat) : String :=
  "Mismatched delimiter: expected \x27" ++ needed.toString ++ "\x27 to close \x27" ++
    opened.toString ++ "\x27 from line " ++ toString openLine ++ ", but found \x27" ++
    found.toString ++ "\x27 at line " ++ toString line

/-- Message for an opener left on the stack at end of input. -/
def unclosedMsg (c : Char) (line : Nat) (missing : Char) : String :=
  "Unclosed \x27" ++ c.toString ++ "\x27 from line " ++ toString line ++
    " - missing \x27" ++ missing.toString ++ "\x27"

/-- Scanner state of `checkBalancedDelimiters`; the stack holds open
delimiters with their line numbers, most recent first. -/
structure CbdState where
  stack : List (Char × Nat)
  errors : List String
  inString : Option Char
  inTemplate : Bool
  inLine : Bool
  inBlock : Bool
  line : Nat
  deriving Repr, DecidableEq

/-- The character loop of `checkBalancedDelimiters`, in source branch order:
newline, line-comment open (consumes two), block-comment open (two),
block-comment close (two), in-comment skip, string escape (two), backtick
toggle, quote handling, in-string skip, delimiter tracking. -/
def cbdLoop (cs : List Char) (st : CbdState) : CbdState :=
  match cs with
  | [] => st
  | c :: rest =>
    if c = '\n' then
      cbdLoop rest { st with line := st.line + 1, inLine := false }
    else if st.inString = none ∧ st.inTemplate = false ∧ st.inBlock = false ∧
        c = '/' ∧ rest.head? = some '/' then
      match rest with
      | [] => { st with inLine := true }
      | _ :: rest2 => cbdLoop rest2 { st with inLine := true }
    else if st.inString = none ∧ st.inTemplate = false ∧ st.inLine = false ∧
        c = '/' ∧ rest.head? = some '*' then
      match rest with
      | [] => { st with inBlock := true }
      | _ :: rest2 => cbdLoop rest2 { st with inBlock := true }
    else if st.inBlock = true ∧ c = '*' ∧ rest.head? = some '/' then
      match rest with
      | [] => { st with inBlock := false }
      | _ :: rest2 => cbdLoop rest2 { st with inBlock := false }
    else if st.inLine = true ∨ st.inBlock = true then
      cbdLoop rest st
    else if (st.inString ≠ none ∨ st.inTemplate = true) ∧ c = '\x5c' then
      match rest with
      | [] => st
      | _ :: rest2 => cbdLoop rest2 st
    else if c = '\x60' then
      cbdLoop rest { st with inTemplate := !st.inTemplate }
    else if (c = '"' ∨ c = '\x27') ∧ st.inTemplate = false then
      match st.inString with
      | some q =>
        if q = c then cbdLoop rest { st with inString := none }
        else cbdLoop rest st
      | none => cbdLoop rest { st with inString := some c }
    else if st.inString ≠ none ∨ st.inTemplate = true then
      cbdLoop rest st
    else if (pairs c).isSome then
      cbdLoop rest { st with stack := (c, st.line) :: st.stack }
    else
      match closers c with
      | some expected =>
        match st.stack with
        | [] =>
          cbdLoop rest { st with errors := st.errors ++ [unexpectedMsg c st.line expected] }
        | (topChar, topLine) :: stack2 =>
          if topChar ≠ expected then
            let e := mismatchMsg ((pairs topChar).getD '?') topChar topLine c st.line
            cbdLoop rest { st with stack := stack2, errors := st.errors ++ [e] }
          else
            cbdLoop rest { st with stack := stack2 }
      | none => cbdLoop rest st

/-- `checkBalancedDelimiters`: run the scanner and append one unclosed
error per opener left on the stack, oldest first. -/
def checkBalancedDelimiters (content : String) : List String :=
  let st := cbdLoop content.data ⟨[], [], none, false, false, false, 1⟩
  st.errors ++ st.stack.reverse.map (fun p => unclosedMsg p.1 p.2 ((pairs p.1).getD '?'))

/-- Per-line scanner of `checkStrings`: returns the still-open quote and the
column index where it was opened, if any. -/
def checkStringsLine (cs : List Char) (pos : Nat) (inString : Option Char)
    (start : Nat) : Option (Char × Nat) :=
  match cs with
  | [] => inString.map (fun q => (q, start))
  | c :: rest =>
    if inString ≠ none ∧ c = '\x5c' then
      match rest with
      | [] => inString.map (fun q => (q, start))
      | _ :: rest2 => checkStringsLine rest2 (pos + 2) inString start
    else if c = '\x60' then
      checkStringsLine rest (pos + 1) inString start
    else if c = '"' ∨ c = '\x27' then
      match inString with
      | some q =>
        if q = c then checkStringsLine rest (pos + 1) none start
        else checkStringsLine rest (pos + 1) inString start
      | none => checkStringsLine rest (pos + 1) (some c) pos
    else
      checkStringsLine rest (pos + 1) inString start

/-- `checkStrings`: per physical line (skipping comment-looking lines),
report a string left open at end of line; a long trailing remainder is
downgraded from error to warning. -/
def checkStrings (content : String) : List String × List String :=
  let lines := splitOnChar '\n' content
  let step := fun (acc : List String × List String) (idxLine : Nat × String) =>
    let lineNumber := idxLine.1 + 1
    let line := idxLine.2
    let trimmed := strTrim line
    if strStartsWith trimmed "//" ∨ strStartsWith trimmed "*" ∨ strStartsWith trimmed "/*" then
      acc
    else
      match checkStringsLine line.data 0 none 0 with
      | none => acc
      | some (q, start) =>
        if line.length - start > 100 then
          (acc.1, acc.2 ++ ["Possibly unclosed string starting at line " ++
            toString lineNumber ++ ", column " ++ toString (start + 1)])
        else
          (acc.1 ++ ["Unclosed string \x27" ++ q.toString ++ "\x27 at line " ++
            toString lineNumber ++ ", column " ++ toString (start + 1)], acc.2)
  (lines.enum.foldl step ([], []))

/-- Scanner state of `checkTemplateLiterals`. -/
structure CtlState where
  inTemplate : Bool
  tmplStartLine : Nat
  line : Nat
  inLine : Bool
  inBlock : Bool
  inString : Option Char
  deriving Repr, DecidableEq

/-- The character loop of `checkTemplateLiterals`, in source branch order.
Unlike the delimiter scanner, a line-comment opener here consumes a single
character, and quote handling comes before backtick handling. -/
def ctlLoop (cs : List Char) (st : CtlState) : CtlState :=
  match cs with
  | [] => st
  | c :: rest =>
    if c = '\n' then
      ctlLoop rest { st with line := st.line + 1, inLine := false }
    else if st.inString = none ∧ st.inTemplate = false ∧ st.inBlock = false ∧
        c = '/' ∧ rest.head? = some '/' then
      ctlLoop rest { st with inLine := true }
    else if st.inString = none ∧ st.inTemplate = false ∧ st.inLine = false ∧
        c = '/' ∧ rest.head? = some '*' then
      match rest with
      | [] => { st with inBlock := true }
      | _ :: rest2 => ctlLoop rest2 { st with inBlock := true }
    else if st.inBlock = true ∧ c = '*' ∧ rest.head? = some '/' then
      match rest with
      | [] => { st with inBlock := false }
      | _ :: rest2 => ctlLoop rest2 { st with inBlock := false }
    else if st.inLine = true ∨ st.inBlock = true then
      ctlLoop rest st
    else if (st.inString ≠ none ∨ st.inTemplate = true) ∧ c = '\x5c' then
      match rest with
      | [] => st
      | _ :: rest2 => ctlLoop rest2 st
    else if (c = '"' ∨ c = '\x27') ∧ st.inTemplate = false then
      match st.inString with
      | some q =>
        if q = c then ctlLoop rest { st with inString := none }
        else ctlLoop rest st
      | none => ctlLoop rest { st with inString := some c }
    else if st.inString ≠ none then
      ctlLoop rest st
    else if c = '\x60' then
      if st.inTemplate then ctlLoop rest { st with inTemplate := false }
      else ctlLoop rest { st with inTemplate := true, tmplStartLine := st.line }
    else
      ctlLoop rest st

/-- `checkTemplateLiterals`: whole-content scan; a template left open at end
of input is one error naming its starting line. -/
def checkTemplateLiterals (content : String) : List String :=
  let st := ctlLoop content.data ⟨false, 0, 1, false, false, none⟩
  if st.inTemplate then
    ["Unclosed template literal starting at line " ++ toString st.tmplStartLine]
  else
    []

/-- `validateJavaScript`: delimiter balance errors, unterminated-string
errors and warnings, and unterminated-template errors; valid iff the error
list is empty. -/
def validateJavaScript (content : String) : ValidationResult :=
  let delimiterErrors := checkBalancedDelimiters content
  let stringResult := checkStrings content
  let templateErrors := checkTemplateLiterals content
  let errors := delimiterErrors ++ stringResult.1 ++ templateErrors
  let warnings := stringResult.2
  ⟨errors.length == 0, errors, warnings⟩

/-- Index of the last occurrence of a character, or `none` (JS
`lastIndexOf` returning `-1`). -/
def lastIdxOf (c : Char) (cs : List Char) : Option Nat :=
  ((cs.enum.filter (fun p => p.2 = c)).getLast?).map (fun p => p.1)

/-- The extension of a path as computed by `CodeValidator`:
`filePath.slice(filePath.lastIndexOf('.')).toLowerCase()`. When there is no
dot, `slice(-1)` yields the last character of the path. -/
def extOf (filePath : String) : String :=
  match lastIdxOf '.' filePath.data with
  | some i => strToLower (strDrop filePath i)
  | none => strToLower (strTakeRight filePath 1)

/-- The `VALIDATABLE_EXTENSIONS` set. -/
def VALIDATABLE_EXTENSIONS : List String :=
  [".js", ".ts", ".jsx", ".tsx", ".mjs", ".cjs", ".json"]

/-- `CodeValidator.shouldValidate`. -/
def shouldValidate (filePath : String) : Bool :=
  VALIDATABLE_EXTENSIONS.contains (extOf filePath)

/-- JSON whitespace skipping for the `JSON.parse` model. -/
def jpSkipWs (cs : List Char) : List Char :=
  cs.dropWhile (fun c => c = ' ' ∨ c = '\t' ∨ c = '\n' ∨ c = '\r')

/-- String body scanner of the `JSON.parse` model: consumes characters
after an opening double quote up to the closing one, decoding escapes. -/
def jpString (cs : List Char) (acc : String) : Except String (String × List Char) :=
  match cs with
  | [] => .error "Unterminated string in JSON"
  | c :: rest =>
    if c = '"' then .ok (acc, rest)
    else if c = '\x5c' then
      match rest with
      | [] => .error "Bad escape in JSON"
      | e :: rest2 =>
        if e = '"' then jpString rest2 (acc.push '"')
        else if e = '\x5c' then jpString rest2 (acc.push '\x5c')
        else if e = '/' then jpString rest2 (acc.push '/')
        else if e = 'n' then jpString rest2 (acc.push '\n')
        else if e = 't' then jpString rest2 (acc.push '\t')
        else if e = 'r' then jpString rest2 (acc.push '\r')
        else if e = 'b' then jpString rest2 (acc.push '\x08')
        else if e = 'f' then jpString rest2 (acc.push '\x0c')
        else if e = 'u' then
          match rest2 with
          | h1 :: h2 :: h3 :: h4 :: rest3 =>
            if [h1, h2, h3, h4].all (fun h => h.isDigit ∨ ('a' ≤ h ∧ h ≤ 'f') ∨ ('A' ≤ h ∧ h ≤ 'F')) then
              let hexVal := fun (h : Char) =>
                if h.isDigit then h.toNat - '0'.toNat
                else if 'a' ≤ h ∧ h ≤ 'f' then h.toNat - 'a'.toNat + 10
                else h.toNat - 'A'.toNat + 10
              let n := ((hexVal h1 * 16 + hexVal h2) * 16 + hexVal h3) * 16 + hexVal h4
              jpString rest3 (acc.push (Char.ofNat n))
            else .error "Bad unicode escape in JSON"
          | _ => .error "Bad unicode escape in JSON"
        else .error "Bad escape in JSON"
    else jpString rest (acc.push c)

/-- Number lexer of the `JSON.parse` model, following the strict JSON
grammar (optional minus, no leading zeros, optional fraction and
exponent); returns the lexeme and the rest. -/
def jpNumber (cs : List Char) : Except String (String × List Char) :=
  let (sign, cs1) :=
    match cs with
    | '-' :: rest => ("-", rest)
    | _ => ("", cs)
  match cs1 with
  | [] => .error "Unexpected end of JSON input"
  | d :: _ =>
    if ¬d.isDigit then .error "Unexpected token in JSON"
    else
      let intPart := cs1.takeWhile Char.isDigit
      let cs2 := cs1.dropWhile Char.isDigit
      if intPart.length > 1 ∧ intPart.headD '0' = '0' then
        .error "Unexpected number in JSON"
      else
        let (fracPart, cs3) :=
          match cs2 with
          | '.' :: rest =>
            ("." ++ String.mk (rest.takeWhile Char.isDigit), rest.dropWhile Char.isDigit)
          | _ => ("", cs2)
        if fracPart = "." then .error "Unexpected token in JSON"
        else
          let (expPart, cs4) :=
            match cs3 with
            | e :: rest =>
              if e = 'e' ∨ e = 'E' then
                let (esign, rest2) :=
                  match rest with
                  | s :: r2 => if s = '+' ∨ s = '-' then (s.toString, r2) else ("", rest)
                  | [] => ("", rest)
                (e.toString ++ esign ++ String.mk (rest2.takeWhile Char.isDigit),
                  rest2.dropWhile Char.isDigit)
              else ("", cs3)
            | [] => ("", cs3)
          if expPart ≠ "" ∧ (expPart.data.filter Char.isDigit) = [] then
            .error "Unexpected token in JSON"
          else
            .ok (sign ++ String.mk intPart ++ fracPart ++ expPart, cs4)

mutual

/-- Recursive value parser of the `JSON.parse` model. The fuel only bounds
recursion depth; it is chosen large enough for the whole input. -/
def jpValue : Nat → List Char → Except String (JsonValue × List Char)
  | 0, _ => .error "JSON input too deeply nested"
  | fuel + 1, cs =>
    match jpSkipWs cs with
    | [] => .error "Unexpected end of JSON input"
    | c :: rest =>
      if c = 'n' then
        match rest with
        | 'u' :: 'l' :: 'l' :: rest2 => .ok (.null, rest2)
        | _ => .error "Unexpected token in JSON"
      else if c = 't' then
        match rest with
        | 'r' :: 'u' :: 'e' :: rest2 => .ok (.bool true, rest2)
        | _ => .error "Unexpected token in JSON"
      else if c = 'f' then
        match rest with
        | 'a' :: 'l' :: 's' :: 'e' :: rest2 => .ok (.bool false, rest2)
        | _ => .error "Unexpected token in JSON"
      else if c = '"' then
        match jpString rest "" with
        | .error e => .error e
        | .ok (s, rest2) => .ok (.str s, rest2)
      else if c = '[' then
        match jpSkipWs rest with
        | ']' :: rest2 => .ok (.arr [], rest2)
        | _ => jpElems fuel rest []
      else if c = '\x7b' then
        match jpSkipWs rest with
        | '\x7d' :: rest2 => .ok (.obj [], rest2)
        | _ => jpMembers fuel rest []
      else
        match jpNumber (c :: rest) with
        | .error e => .error e
        | .ok (lexeme, rest2) => .ok (.num lexeme, rest2)

/-- Array element loop of the `JSON.parse` model. -/
def jpElems : Nat → List Char → List JsonValue → Except String (JsonValue × List Char)
  | 0, _, _ => .error "JSON input too deeply nested"
  | fuel + 1, cs, acc =>
    match jpValue fuel cs with
    | .error e => .error e
    | .ok (v, rest) =>
      match jpSkipWs rest with
      | ',' :: rest2 => jpElems fuel rest2 (acc ++ [v])
      | ']' :: rest2 => .ok (.arr (acc ++ [v]), rest2)
      | _ => .error "Unexpected token in JSON"

/-- Object member loop of the `JSON.parse` model. -/
def jpMembers : Nat → List Char → List (String × JsonValue) →
    Except String (JsonValue × List Char)
  | 0, _, _ => .error "JSON input too deeply nested"
  | fuel + 1, cs, acc =>
    match jpSkipWs cs with
    | '"' :: rest =>
      match jpString rest "" with
      | .error e => .error e
      | .ok (k, rest2) =>
        match jpSkipWs rest2 with
        | ':' :: rest3 =>
          match jpValue fuel rest3 with
          | .error e => .error e
          | .ok (v, rest4) =>
            match jpSkipWs rest4 with
            | ',' :: rest5 => jpMembers fuel rest5 (acc ++ [(k, v)])
            | '\x7d' :: rest5 => .ok (.obj (acc ++ [(k, v)]), rest5)
            | _ => .error "Unexpected token in JSON"
        | _ => .error "Expected colon in JSON"
    | _ => .error "Expected string key in JSON"

end

/-- The `JSON.parse` model: parse one value and require only whitespace
after it. -/
def jsonParse (content : String) : Except String JsonValue :=
  match jpValue (2 * content.length + 8) content.data with
  | .error e => .error e
  | .ok (v, rest) =>
    match jpSkipWs rest with
    | [] => .ok v
    | _ => .error "Unexpected non-whitespace character after JSON data"

/-- `CodeValidator.validateJSON`: a strict parse; a parse failure becomes a
single error entry. -/
def validateJSON (content : String) : ValidationResult :=
  let errors :=
    match jsonParse content with
    | .ok _ => []
    | .error m => ["JSON syntax error: " ++ m]
  ⟨errors.length == 0, errors, []⟩

/-- `CodeValidator.validate`: dispatch on the extension. -/
def validate (filePath content : String) : ValidationResult :=
  let ext := extOf filePath
  if ext = ".json" then validateJSON content
  else if ([".js", ".ts", ".jsx", ".tsx", ".mjs", ".cjs"] : List String).contains ext then
    validateJavaScript content
  else ⟨true, [], []⟩

/-! ## Tool executor (`ToolExecutor.ts`) -/

/-- The structured result every operation returns to the caller. -/
structure ToolResult where
  success : Bool
  output : String
  error : Option String := none
  deriving Repr, DecidableEq

/-- Typed `write_file` input after validation. -/
structure WriteFileInput where
  path : String
  content : String
  skipValidation : Bool
  deriving Repr, DecidableEq

/-- Typed `read_file` input after validation. -/
structure ReadFileInput where
  path : String
  deriving Repr, DecidableEq

/-- Typed `run_command` input after validation. -/
structure RunCommandInput where
  command : String
  cwd : Option String
  deriving Repr, DecidableEq

/-- Typed `list_files` input after validation. -/
structure ListFilesInput where
  path : Option String
  recursive : Option Bool
  deriving Repr, DecidableEq

/-- `ToolExecutor.validateWriteFileInput`: requires an object with a
non-empty string `path`; coerces `content` defensively (string kept,
null/undefined emptied, arrays newline-joined after element coercion,
objects pretty-printed as JSON, other scalars string-coerced). -/
def validateWriteFileInput (input : JsonValue) : Except String WriteFileInput :=
  if ¬isObjectLike input then .error "Invalid input: expected object"
  else
    match getField input "path" with
    | some (.str p) =>
      if strTrim p = "" then .error "Invalid input: path must be a non-empty string"
      else
        let content :=
          match getField input "content" with
          | some (.str s) => s
          | none => ""
          | some .null => ""
          | some (.arr items) => String.intercalate "\n" (items.map jsToString)
          | some (.obj fields) => jsonStringify 0 (.obj fields)
          | some other => jsToString other
        let skip :=
          match getField input "skipValidation" with
          | some (.bool true) => true
          | _ => false
        .ok ⟨strTrim p, content, skip⟩
    | _ => .error "Invalid input: path must be a non-empty string"

/-- `ToolExecutor.validateReadFileInput`. -/
def validateReadFileInput (input : JsonValue) : Except String ReadFileInput :=
  if ¬isObjectLike input then .error "Invalid input: expected object"
  else
    match getField input "path" with
    | some (.str p) =>
      if strTrim p = "" then .error "Invalid input: path must be a non-empty string"
      else .ok ⟨strTrim p⟩
    | _ => .error "Invalid input: path must be a non-empty string"

/-- `ToolExecutor.validateRunCommandInput`. -/
def validateRunCommandInput (input : JsonValue) : Except String RunCommandInput :=
  if ¬isObjectLike input then .error "Invalid input: expected object"
  else
    match getField input "command" with
    | some (.str c) =>
      if strTrim c = "" then .error "Invalid input: command must be a non-empty string"
      else
        match getField input "cwd" with
        | none => .ok ⟨strTrim c, none⟩
        | some (.str w) => .ok ⟨strTrim c, some w⟩
        | some _ => .error "Invalid input: cwd must be a string"
    | _ => .error "Invalid input: command must be a non-empty string"

/-- `ToolExecutor.validateListFilesInput`. -/
def validateListFilesInput (input : JsonValue) : Except String ListFilesInput :=
  if ¬isObjectLike input then .error "Invalid input: expected object"
  else
    match getField input "path" with
    | some (.str _) | none =>
      match getField input "recursive" with
      | some (.bool _) | none =>
        let p := match getField input "path" with
          | some (.str p) => some p
          | _ => none
        let r := match getField input "recursive" with
          | some (.bool b) => some b
          | _ => none
        .ok ⟨p, r⟩
      | some _ => .error "Invalid input: recursive must be a boolean"
    | some _ => .error "Invalid input: path must be a string"

/-- The file system, modelled as a flat map from absolute file paths to
contents (directories are implicit; `mkdir` is a no-op in this model). -/
def FS := List (String × String)

/-- Write (fully overwriting) a file in the flat file-system model. -/
def setFile (fs : FS) (p c : String) : FS :=
  (p, c) :: fs.filter (fun e => e.1 ≠ p)

/-- Read a file from the flat file-system model. -/
def getFileContent (fs : FS) (p : String) : Option String :=
  (fs.find? (fun e => e.1 = p)).map (fun e => e.2)

/-- A child-process spawn request: either an argument-vector launch with
shell interpretation disabled, or a shell launch of a command line
(`sh -c`). -/
inductive SpawnCall where
  | direct (cmd : String) (args : List String)
  | shell (cmdLine : String)
  deriving Repr, DecidableEq

/-- Outcome of an actually spawned child process, supplied by an oracle:
a close event with an exit code and captured streams, or an error event. -/
inductive ChildOutcome where
  | closed (code : Int) (stdout stderr : String)
  | errored (msg : String)
  deriving Repr, DecidableEq

/-- The close/error handlers of `runCommand`: stderr is appended to the
output under a marker; exit code 0 is success (with a fallback message when
the output is empty) and anything else is a failure carrying the output. -/
def resultOfOutcome : ChildOutcome → ToolResult
  | .closed code stdout stderr =>
    let output := stdout ++ (if stderr ≠ "" then "\nStderr: " ++ stderr else "")
    if code = 0 then
      ⟨true, if output = "" then "Command completed successfully" else output, none⟩
    else
      ⟨false, "", some ("Command failed with exit code " ++ toString code ++ ". " ++ output)⟩
  | .errored msg => ⟨false, "", some msg⟩

/-- The `cwd` handling of `runCommand`: a truthy `cwd` is path-guarded,
otherwise the working directory is used. -/
def resolveCwd (wd : String) : Option String → Except String String
  | some c => if c ≠ "" then validatePath wd c else .ok wd
  | none => .ok wd

/-- `ToolExecutor.runCommand` after input validation: parse and
allowlist-check the command, guard `cwd`, ask for confirmation, and spawn —
directly from the argument vector for plain commands, through the shell
with the rejoined validated pipe chain for pipelines. Returns the result
together with the list of spawn requests issued. -/
def runCommandChecked (wd : String) (v : RunCommandInput) (confirm : Bool)
    (outcome : SpawnCall → ChildOutcome) : Except String (ToolResult × List SpawnCall) :=
  match parseCommand v.command with
  | .error e => .error e
  | .ok pc =>
    match resolveCwd wd v.cwd with
    | .error e => .error e
    | .ok _ =>
      if confirm then
        let call :=
          if pc.isPiped then SpawnCall.shell (String.intercalate " | " pc.pipeChain)
          else SpawnCall.direct pc.cmd pc.args
        .ok (resultOfOutcome (outcome call), [call])
      else
        .ok (⟨false, "", some "User declined to run this command"⟩, [])

/-- The body of `runCommand` before its catch-all. -/
def runCommandCore (wd : String) (input : JsonValue) (confirm : Bool)
    (outcome : SpawnCall → ChildOutcome) : Except String (ToolResult × List SpawnCall) :=
  match validateRunCommandInput input with
  | .error e => .error e
  | .ok v => runCommandChecked wd v confirm outcome

/-- `ToolExecutor.runCommand`: every internal failure is caught and turned
into a failed result; no spawn happens on a caught failure. -/
def runCommand (wd : String) (input : JsonValue) (confirm : Bool)
    (outcome : SpawnCall → ChildOutcome) : ToolResult × List SpawnCall :=
  match runCommandCore wd input confirm outcome with
  | .ok r => r
  | .error e => (⟨false, "", some e⟩, [])

/-- The failed-result message built from the syntax validator error list. -/
def syntaxFailedMsg (p : String) (errors : List String) : String :=
  "Syntax validation failed for " ++ p ++ ":\n  - " ++
    String.intercalate "\n  - " errors ++ "\n\nFix the syntax errors and try again."

/-- `ToolExecutor.writeFile` after input validation: guard the path, run
the syntax validator unless skipped (errors abort before any file-system
mutation; warnings do not), then write, fully overwriting. -/
def writeFileChecked (wd : String) (v : WriteFileInput) (fs : FS) :
    Except String (ToolResult × FS) :=
  match validatePath wd v.path with
  | .error e => .error e
  | .ok fullPath =>
    let proceed : ToolResult × FS :=
      (⟨true, "Successfully wrote " ++ v.path, none⟩, setFile fs fullPath v.content)
    if v.skipValidation = false ∧ shouldValidate v.path then
      let validationResult := validate v.path v.content
      if validationResult.valid = false then
        .ok (⟨false, "", some (syntaxFailedMsg v.path validationResult.errors)⟩, fs)
      else
        .ok proceed
    else
      .ok proceed

/-- The body of `writeFile` before its catch-all. -/
def writeFileCore (wd : String) (input : JsonValue) (fs : FS) :
    Except String (ToolResult × FS) :=
  match validateWriteFileInput input with
  | .error e => .error e
  | .ok v => writeFileChecked wd v fs

/-- `ToolExecutor.writeFile`: every internal failure is caught and turned
into a failed result, leaving the file system unchanged. -/
def writeFile (wd : String) (input : JsonValue) (fs : FS) : ToolResult × FS :=
  match writeFileCore wd input fs with
  | .ok r => r
  | .error e => (⟨false, "", some e⟩, fs)

/-- `ToolExecutor.readFile` after input validation: guard the path and
return the full content; a missing file is a thrown error. -/
def readFileChecked (wd : String) (v : ReadFileInput) (fs : FS) :
    Except String ToolResult :=
  match validatePath wd v.path with
  | .error e => .error e
  | .ok fullPath =>
    match getFileContent fs fullPath with
    | some content => .ok ⟨true, content, none⟩
    | none => .error ("ENOENT: no such file or directory, open " ++ fullPath)

/-- The body of `readFile` before its catch-all. -/
def readFileCore (wd : String) (input : JsonValue) (fs : FS) : Except String ToolResult :=
  match validateReadFileInput input with
  | .error e => .error e
  | .ok v => readFileChecked wd v fs

/-- `ToolExecutor.readFile`: every internal failure is caught and turned
into a failed result. -/
def readFile (wd : String) (input : JsonValue) (fs : FS) : ToolResult :=
  match readFileCore wd input fs with
  | .ok r => r
  | .error e => ⟨false, "", some e⟩

/-- Immediate child names of a directory in the flat file-system model. -/
def childNames (fs : FS) (dir : String) : List String :=
  ((fs.map (fun e => e.1)).filterMap (fun k =>
    if strStartsWith k (dir ++ "/") then
      some ((splitOnChar '/' (strDrop k (dir.length + 1))).headD "")
    else none)).dedup

/-- Whether a path is an (implicit) directory in the flat model. -/
def isDirIn (fs : FS) (p : String) : Bool :=
  fs.any (fun e => strStartsWith e.1 (p ++ "/"))

/-- `ToolExecutor.listFilesRecursive`: re-checks the sandbox boundary at
every level (defense in depth), skips `node_modules` and hidden entries,
recurses into directories or lists them with a trailing separator. The
fuel bounds the recursion depth in the model. -/
def listFilesRecursive (fs : FS) (wd : String) : Nat → String → Bool →
    Except String (List String)
  | 0, _, _ => .ok []
  | fuel + 1, dir, recursive =>
    let normalizedDir := posixNormalize dir
    if ¬(strStartsWith normalizedDir (wd ++ "/")) ∧ normalizedDir ≠ wd then
      .error "Directory traversal not allowed"
    else
      (childNames fs dir).foldlM (fun acc name =>
        if name = "node_modules" ∨ strStartsWith name "." then .ok acc
        else
          let fullPath := dir ++ "/" ++ name
          if isDirIn fs fullPath then
            if recursive then
              match listFilesRecursive fs wd fuel fullPath true with
              | .error e => .error e
              | .ok sub => .ok (acc ++ sub)
            else .ok (acc ++ [fullPath ++ "/"])
          else .ok (acc ++ [fullPath])) []

/-- `path.relative(wd, f)` restricted to paths at or under `wd`, the only
inputs the walk produces. -/
def relativeToWd (wd f : String) : String :=
  if f = wd then "" else if strStartsWith f (wd ++ "/") then strDrop f (wd.length + 1) else f

/-- The body of `listFiles` before its catch-all. -/
def listFilesCore (wd : String) (input : JsonValue) (fs : FS) : Except String ToolResult :=
  match validateListFilesInput input with
  | .error e => .error e
  | .ok v =>
    let targetRes :=
      match v.path with
      | some p => validatePath wd p
      | none => .ok wd
    match targetRes with
    | .error e => .error e
    | .ok targetPath =>
      match listFilesRecursive fs wd (fs.foldl (fun a e => a + e.1.length) 1)
          targetPath (v.recursive.getD false) with
      | .error e => .error e
      | .ok files =>
        let relativePaths := files.map (relativeToWd wd)
        .ok ⟨true,
          if relativePaths.length > 0 then String.intercalate "\n" relativePaths
          else "(empty directory)", none⟩

/-- `ToolExecutor.listFiles`: every internal failure is caught and turned
into a failed result. -/
def listFiles (wd : String) (input : JsonValue) (fs : FS) : ToolResult :=
  match listFilesCore wd input fs with
  | .ok r => r
  | .error e => ⟨false, "", some e⟩

/-- `ToolExecutor.execute`: dispatch on the operation name; an unknown
name yields a failed result naming the unknown operation. Returns the
result, the (possibly updated) file system, and the spawn requests issued. -/
def execute (wd : String) (toolName : String) (input : JsonValue) (fs : FS)
    (confirm : Bool) (outcome : SpawnCall → ChildOutcome) :
    ToolResult × FS × List SpawnCall :=
  if toolName = "write_file" then
    let r := writeFile wd input fs
    (r.1, r.2, [])
  else if toolName = "read_file" then
    (readFile wd input fs, fs, [])
  else if toolName = "run_command" then
    let r := runCommand wd input confirm outcome
    (r.1, fs, r.2)
  else if toolName = "list_files" then
    (listFiles wd input fs, fs, [])
  else
    (⟨false, "", some ("Unknown tool: " ++ toolName)⟩, fs, [])

/-! ## Claims -/

instance exceptDecEq {ε α : Type} [DecidableEq ε] [DecidableEq α] : DecidableEq (Except ε α)
  | .error e, .error f =>
    decidable_of_iff (e = f) (by constructor
                                 · intro h
                                   rw [h]
                                 · intro h
                                   injection h)
  | .error _, .ok _ => isFalse (fun h => Except.noConfusion h)
  | .ok _, .error _ => isFalse (fun h => Except.noConfusion h)
  | .ok a, .ok b =>
    decidable_of_iff (a = b) (by constructor
                                 · intro h
                                   rw [h]
                                 · intro h
                                   injection h)

/-- Claim C1: for every inputPath, the path guard fails with a path
traversal error exactly when the normalized resolution of the input against
the working directory neither equals the working directory nor begins with
the working directory followed by the separator; escaping paths (relative
dot-dot sequences, absolute paths outside the sandbox) fail, and paths
resolving inside the sandbox, the working directory itself included,
succeed and return the resolved absolute path. -/
theorem validatePath_sandbox_guard (wd p : String) :
    (validatePath wd p = .error (traversalMsg p) ↔
      (strStartsWith (posixNormalize (posixResolve wd p)) (wd ++ "/") = false ∧
        posixNormalize (posixResolve wd p) ≠ wd))
    ∧ (strStartsWith (posixNormalize (posixResolve wd p)) (wd ++ "/") = true ∨
          posixNormalize (posixResolve wd p) = wd →
        validatePath wd p = .ok (posixResolve wd p))
    ∧ validatePath "/sandbox" "../../etc/passwd" = .error (traversalMsg "../../etc/passwd")
    ∧ validatePath "/sandbox" "/etc/passwd" = .error (traversalMsg "/etc/passwd")
    ∧ validatePath "/sandbox" "." = .ok "/sandbox"
    ∧ validatePath "/sandbox" "src/main.js" = .ok "/sandbox/src/main.js" := by
  have hdef : validatePath wd p =
      if ¬(strStartsWith (posixNormalize (posixResolve wd p)) (wd ++ "/")) ∧
          posixNormalize (posixResolve wd p) ≠ wd then
        .error (traversalMsg p)
      else
        .ok (posixResolve wd p) := rfl
  refine ⟨?_, ?_, by decide, by decide, by decide, by decide⟩
  · rw [hdef]
    split
    · rename_i h
      rw [Bool.not_eq_true] at h
      simp only [h.1, h.2, ne_eq, not_false_eq_true, and_self, iff_true]
    · rename_i h
      constructor
      · intro hcontra
        simp at hcontra
      · intro hcond
        exact absurd ⟨by rw [Bool.not_eq_true]; exact hcond.1, hcond.2⟩ h
  · intro hin
    rw [hdef]
    split
    · rename_i h
      rw [Bool.not_eq_true] at h
      rcases hin with hin | hin
      · rw [hin] at h
        simp at h
      · exact absurd hin h.2
    · rfl

/-- Witness for C1 at a concrete in-sandbox path. -/
theorem validatePath_sandbox_guard_witness :
    validatePath "/wd" "inner/file.ts" = .ok (posixResolve "/wd" "inner/file.ts") :=
  (validatePath_sandbox_guard "/wd" "inner/file.ts").2.1 (by decide)

/-- Claim C2: every command string containing a character of the denied
metacharacter set fails with the dangerous-metacharacter error before any
tokenization or allowlist check, and the pipe character is not denied. -/
theorem parseCommand_dangerous_metachar (s : String) (c : Char)
    (hc : c ∈ s.data) (hd : c ∈ DANGEROUS_CHARS) :
    parseCommand s = .error dangerousMsg
    ∧ dangerousMsg = "Command contains dangerous shell metacharacters"
    ∧ DANGEROUS_CHARS.contains '|' = false := by
  have h : hasDangerousChar s = true := by
    unfold hasDangerousChar
    rw [List.any_eq_true]
    exact ⟨c, hc, by simpa using hd⟩
  exact ⟨by unfold parseCommand; rw [h]; rfl, rfl, by decide⟩

/-- Witness for C2: a semicolon inside an otherwise allowlisted command. -/
theorem parseCommand_dangerous_metachar_witness :
    parseCommand "ls; rm -rf /" = .error dangerousMsg
    ∧ dangerousMsg = "Command contains dangerous shell metacharacters"
    ∧ DANGEROUS_CHARS.contains '|' = false :=
  parseCommand_dangerous_metachar "ls; rm -rf /" ';' (by decide) (by decide)

/-- A pipe segment tokenizes to a non-empty token list (so its command
name, the first token, exists). -/
def segTokenizes (seg : String) : Bool :=
  match tokenizeCommand seg with
  | .ok (_ :: _) => true
  | _ => false

/-- A pipe segment whose command name exists and is not allowlisted. -/
def segDisallowed (seg : String) : Bool :=
  match tokenizeCommand seg with
  | .ok (t :: _) => !(ALLOWED_COMMANDS.contains t)
  | _ => false

/-- The segment-validation loop errors with the command-not-allowed message
of some offending command name as soon as a segment with a disallowed
command name is present (and every segment tokenizes). -/
theorem validateSegments_fails_on_disallowed (segs : List String) :
    ∀ acc : List String,
    (∀ seg ∈ segs, segTokenizes seg = true) →
    (∃ seg ∈ segs, segDisallowed seg = true) →
    ∃ c, ALLOWED_COMMANDS.contains c = false ∧
      (∃ seg ∈ segs, ∃ ts, tokenizeCommand seg = .ok (c :: ts)) ∧
      validateSegments segs acc = .error (notAllowedMsg c) := by
  induction segs with
  | nil =>
    intro acc _ hbad
    simp at hbad
  | cons seg rest ih =>
    intro acc htok hbad
    have h0 := htok seg (by simp)
    unfold segTokenizes at h0
    cases he : tokenizeCommand seg with
    | error e => rw [he] at h0; simp at h0
    | ok toks =>
      cases toks with
      | nil => rw [he] at h0; simp at h0
      | cons t ts =>
        by_cases hall : ALLOWED_COMMANDS.contains t = true
        · have hbadrest : ∃ s2 ∈ rest, segDisallowed s2 = true := by
            rcases hbad with ⟨s2, hs2mem, hs2⟩
            rcases List.mem_cons.mp hs2mem with h | h
            · subst h
              unfold segDisallowed at hs2
              rw [he] at hs2
              simp [hall] at hs2
              exact absurd (by simpa using hall) hs2
            · exact ⟨s2, h, hs2⟩
          obtain ⟨c, hc1, ⟨s2, hs2mem, ts2, hs2tok⟩, hc3⟩ :=
            ih (acc ++ [seg]) (fun s hs => htok s (by simp [hs])) hbadrest
          refine ⟨c, hc1, ⟨s2, by simp [hs2mem], ts2, hs2tok⟩, ?_⟩
          unfold validateSegments
          rw [he]
          simp only [hall]
          simpa using hc3
        · rw [Bool.not_eq_true] at hall
          refine ⟨t, hall, ⟨seg, by simp, ts, he⟩, ?_⟩
          unfold validateSegments
          rw [he]
          simp only [hall]
          simp

/-- Claim C3: whenever any pipe segment's command name (first token) is
outside the fixed allowlist — the segments tokenizing and the raw string
containing no denied metacharacter — parsing fails with a
command-not-allowed error naming an offending command and listing the full
allowed set, and `run_command` issues no spawn request for that command. -/
theorem parseCommand_allowlist_rejection (s wd : String) (cwd : Option String)
    (confirm : Bool) (outcome : SpawnCall → ChildOutcome)
    (hclean : hasDangerousChar s = false)
    (htok : ∀ seg ∈ pipeSegs s, segTokenizes seg = true)
    (hbad : ∃ seg ∈ pipeSegs s, segDisallowed seg = true) :
    ∃ c, ALLOWED_COMMANDS.contains c = false ∧
      (∃ seg ∈ pipeSegs s, ∃ ts, tokenizeCommand seg = .ok (c :: ts)) ∧
      parseCommand s = .error (notAllowedMsg c) ∧
      (∀ input : JsonValue, validateRunCommandInput input = .ok ⟨s, cwd⟩ →
        (runCommand wd input confirm outcome).2 = []) := by
  obtain ⟨c, hc1, hc2, hc3⟩ :=
    validateSegments_fails_on_disallowed (pipeSegs s) [] htok hbad
  have hparse : parseCommand s = .error (notAllowedMsg c) := by
    unfold parseCommand
    rw [hclean]
    simp only [Bool.false_eq_true, if_false]
    rw [hc3]
  refine ⟨c, hc1, hc2, hparse, ?_⟩
  intro input hv
  unfold runCommand runCommandCore
  rw [hv]
  unfold runCommandChecked
  simp only
  rw [hparse]

/-- Witness for C3: a pipeline with a disallowed middle segment. -/
theorem parseCommand_allowlist_rejection_witness :
    ∃ c, ALLOWED_COMMANDS.contains c = false ∧
      (∃ seg ∈ pipeSegs "ls | evilcmd -x | cat", ∃ ts, tokenizeCommand seg = .ok (c :: ts)) ∧
      parseCommand "ls | evilcmd -x | cat" = .error (notAllowedMsg c) ∧
      (∀ input : JsonValue,
        validateRunCommandInput input = .ok ⟨"ls | evilcmd -x | cat", none⟩ →
        (runCommand "/sandbox" input true (fun _ => .errored "never spawned")).2 = []) :=
  parseCommand_allowlist_rejection "ls | evilcmd -x | cat" "/sandbox" none true
    (fun _ => .errored "never spawned") (by decide) (by decide) (by decide)

/-- When the segment-validation loop succeeds, the pipe chain it returns is
exactly the accumulator followed by the validated segments. -/
theorem validateSegments_ok_chain (segs : List String) :
    ∀ acc chain : List String,
    validateSegments segs acc = .ok chain → chain = acc ++ segs := by
  induction segs with
  | nil =>
    intro acc chain h
    unfold validateSegments at h
    simp at h
    simp [h]
  | cons seg rest ih =>
    intro acc chain h
    unfold validateSegments at h
    cases he : tokenizeCommand seg with
    | error e => rw [he] at h; simp at h
    | ok toks =>
      rw [he] at h
      cases toks with
      | nil => simp at h
      | cons t ts =>
        by_cases hall : ALLOWED_COMMANDS.contains t = true
        · simp only [hall] at h
          simp at h
          have := ih (acc ++ [seg]) chain h
          simpa using this
        · rw [Bool.not_eq_true] at hall
          simp only [hall] at h
          simp at h

/-- When `parseCommand` succeeds, the pipe chain of the result is exactly
the non-empty trimmed pipe segments of the raw string. -/
theorem parseCommand_ok_pipeChain (s : String) (pc : ParsedCommand)
    (h : parseCommand s = .ok pc) : pc.pipeChain = pipeSegs s := by
  unfold parseCommand at h
  split at h
  · exact absurd h (by simp)
  · dsimp only at h
    split at h
    · exact absurd h (by simp)
    · rename_i chain hv
      have hchain : chain = pipeSegs s := by
        simpa using validateSegments_ok_chain (pipeSegs s) [] chain hv
      split at h
      · exact absurd h (by simp)
      · split at h
        · exact absurd h (by simp)
        · injection h with h
          rw [← h, hchain]
        · injection h with h
          rw [← h, hchain]

/-- Claim C4: a confirmed `run_command` whose command parsed successfully
spawns exactly once — a plain command directly from the first segment's
command name and tokenized argument vector without a shell, a piped
command through the shell with exactly the validated pipe segments
rejoined with a spaced pipe separator (never the raw command text). -/
theorem runCommand_spawn_shape (wd s : String) (cwd : Option String) (d : String)
    (pc : ParsedCommand) (outcome : SpawnCall → ChildOutcome)
    (hp : parseCommand s = .ok pc) (hc : resolveCwd wd cwd = .ok d) :
    (pc.isPiped = false →
      runCommandChecked wd ⟨s, cwd⟩ true outcome =
        .ok (resultOfOutcome (outcome (.direct pc.cmd pc.args)),
          [SpawnCall.direct pc.cmd pc.args]))
    ∧ (pc.isPiped = true →
      runCommandChecked wd ⟨s, cwd⟩ true outcome =
        .ok (resultOfOutcome (outcome (.shell (String.intercalate " | " pc.pipeChain))),
          [SpawnCall.shell (String.intercalate " | " pc.pipeChain)]))
    ∧ pc.pipeChain = pipeSegs s := by
  refine ⟨?_, ?_, parseCommand_ok_pipeChain s pc hp⟩
  · intro hpiped
    unfold runCommandChecked
    simp only
    rw [hp, hc]
    simp [hpiped]
  · intro hpiped
    unfold runCommandChecked
    simp only
    rw [hp, hc]
    simp [hpiped]

/-- Witness for C4: a concrete confirmed pipeline spawns through the shell
with the rejoined validated segments. -/
theorem runCommand_spawn_shape_witness :
    runCommandChecked "/sandbox" ⟨"grep foo file.txt | wc -l", none⟩ true
        (fun _ => .closed 0 "2\n" "") =
      .ok (⟨true, "2\n", none⟩, [SpawnCall.shell "grep foo file.txt | wc -l"]) := by
  have h := (runCommand_spawn_shape "/sandbox" "grep foo file.txt | wc -l" none "/sandbox"
    ⟨"grep", ["foo", "file.txt"], true, ["grep foo file.txt", "wc -l"]⟩
    (fun _ => .closed 0 "2\n" "") (by decide) rfl).2.1 rfl
  simpa using h

/-- Claim C5: `execute` always returns a structured result — an unknown
operation name yields a failed result naming it, and every internal failure
of any of the four operations is converted into a failed result carrying
the failure message (leaving the file system untouched and spawning
nothing) rather than escaping as an exception. -/
theorem execute_structured_results :
    (∀ (wd name : String) (input : JsonValue) (fs : FS) (confirm : Bool)
        (outcome : SpawnCall → ChildOutcome),
      name ≠ "write_file" → name ≠ "read_file" → name ≠ "run_command" → name ≠ "list_files" →
      execute wd name input fs confirm outcome =
        (⟨false, "", some ("Unknown tool: " ++ name)⟩, fs, []))
    ∧ (∀ (wd : String) (input : JsonValue) (fs : FS) (e : String),
        writeFileCore wd input fs = .error e →
        writeFile wd input fs = (⟨false, "", some e⟩, fs))
    ∧ (∀ (wd : String) (input : JsonValue) (fs : FS) (e : String),
        readFileCore wd input fs = .error e →
        readFile wd input fs = ⟨false, "", some e⟩)
    ∧ (∀ (wd : String) (input : JsonValue) (confirm : Bool)
        (outcome : SpawnCall → ChildOutcome) (e : String),
        runCommandCore wd input confirm outcome = .error e →
        runCommand wd input confirm outcome = (⟨false, "", some e⟩, []))
    ∧ (∀ (wd : String) (input : JsonValue) (fs : FS) (e : String),
        listFilesCore wd input fs = .error e →
        listFiles wd input fs = ⟨false, "", some e⟩) := by
  refine ⟨?_, ?_, ?_, ?_, ?_⟩
  · intro wd name input fs confirm outcome h1 h2 h3 h4
    unfold execute
    rw [if_neg h1, if_neg h2, if_neg h3, if_neg h4]
  · intro wd input fs e h
    unfold writeFile
    rw [h]
  · intro wd input fs e h
    unfold readFile
    rw [h]
  · intro wd input confirm outcome e h
    unfold runCommand
    rw [h]
  · intro wd input fs e h
    unfold listFiles
    rw [h]

/-- Witness for C5: an unknown operation name, and a malformed payload
whose validation failure is converted into a failed result. -/
theorem execute_structured_results_witness :
    execute "/sandbox" "self_destruct" .null [] true (fun _ => .errored "no") =
      (⟨false, "", some "Unknown tool: self_destruct"⟩, [], []) ∧
    writeFile "/sandbox" .null [] =
      (⟨false, "", some "Invalid input: expected object"⟩, []) :=
  ⟨execute_structured_results.1 "/sandbox" "self_destruct" .null [] true
      (fun _ => .errored "no") (by decide) (by decide) (by decide) (by decide),
    execute_structured_results.2.1 "/sandbox" .null [] "Invalid input: expected object" rfl⟩

/-- Claim C6: a `run_command` request that parses and allowlist-checks
successfully but whose confirmation collaborator returns false spawns no
process and returns exactly the declined failure result. -/
theorem runCommand_declined (wd : String) (v : RunCommandInput) (d : String)
    (pc : ParsedCommand) (outcome : SpawnCall → ChildOutcome)
    (hp : parseCommand v.command = .ok pc) (hc : resolveCwd wd v.cwd = .ok d) :
    runCommandChecked wd v false outcome =
      .ok (⟨false, "", some "User declined to run this command"⟩, []) ∧
    (∀ input : JsonValue, validateRunCommandInput input = .ok v →
      runCommand wd input false outcome =
        (⟨false, "", some "User declined to run this command"⟩, [])) := by
  have hchecked : runCommandChecked wd v false outcome =
      .ok (⟨false, "", some "User declined to run this command"⟩, []) := by
    unfold runCommandChecked
    rw [hp, hc]
    rfl
  refine ⟨hchecked, ?_⟩
  intro input hv
  unfold runCommand runCommandCore
  rw [hv]
  simp only [hchecked]

/-- Witness for C6 on a concrete declined command. -/
theorem runCommand_declined_witness :
    runCommand "/sandbox" (.obj [("command", .str "ls -la")]) false
        (fun _ => .closed 0 "should not run" "") =
      (⟨false, "", some "User declined to run this command"⟩, []) :=
  (runCommand_declined "/sandbox" ⟨"ls -la", none⟩ "/sandbox"
      ⟨"ls", ["-la"], false, ["ls -la"]⟩ (fun _ => .closed 0 "should not run" "")
      (by decide) rfl).2 (.obj [("command", .str "ls -la")]) rfl

/-- The syntax validator's `valid` flag is exactly the emptiness of its
error list, for every dispatch branch. -/
theorem validate_valid_iff_no_errors (p c : String) :
    (validate p c).valid = true ↔ (validate p c).errors = [] := by
  unfold validate
  dsimp only
  split
  · unfold validateJSON
    cases jsonParse c <;> simp
  · split
    · unfold validateJavaScript
      simp
    · simp

/-- Claim C7: a `write_file` of a validatable file with validation not
skipped aborts with a failed result carrying the concatenated error list —
touching nothing — when the syntax validator reports an error, and
proceeds to a successful, fully overwriting write when it reports no
errors (warnings alone never block). -/
theorem writeFile_validation_gate (wd : String) (v : WriteFileInput) (fs : FS)
    (fullPath : String)
    (hpath : validatePath wd v.path = .ok fullPath)
    (hsv : shouldValidate v.path = true)
    (hskip : v.skipValidation = false) :
    ((validate v.path v.content).valid = false →
      writeFileChecked wd v fs =
        .ok (⟨false, "",
          some (syntaxFailedMsg v.path (validate v.path v.content).errors)⟩, fs))
    ∧ ((validate v.path v.content).errors = [] →
      writeFileChecked wd v fs =
        .ok (⟨true, "Successfully wrote " ++ v.path, none⟩, setFile fs fullPath v.content)) := by
  constructor
  · intro hinvalid
    unfold writeFileChecked
    rw [hpath]
    simp [hskip, hsv, hinvalid]
  · intro hnoerr
    have hvalid : (validate v.path v.content).valid = true :=
      (validate_valid_iff_no_errors v.path v.content).mpr hnoerr
    unfold writeFileChecked
    rw [hpath]
    simp [hskip, hsv, hvalid]

set_option maxHeartbeats 4000000 in
/-- Witness for C7: a syntactically broken JavaScript write aborts with the
validator's errors and leaves the file system unchanged. -/
theorem writeFile_validation_gate_witness :
    writeFileChecked "/sandbox" ⟨"a.js", "const x = (1;", false⟩ [] =
      .ok (⟨false, "",
        some (syntaxFailedMsg "a.js" (validate "a.js" "const x = (1;").errors)⟩, []) :=
  (writeFile_validation_gate "/sandbox" ⟨"a.js", "const x = (1;", false⟩ []
    "/sandbox/a.js" (by decide) (by decide) rfl).1 (by decide)

/-- Writing a file makes it readable with exactly the written content. -/
theorem getFileContent_setFile (fs : FS) (p c : String) :
    getFileContent (setFile fs p c) p = some c := by
  unfold getFileContent setFile
  simp [List.find?]

/-- Claim C8: round-trip — a successful `write_file` of content X to an
in-sandbox path P (validation passing or skipped) followed by `read_file`
of P returns a successful result whose output is exactly X. -/
theorem write_then_read_roundtrip (wd P X : String) (skip : Bool) (fs : FS)
    (fullPath : String)
    (hpath : validatePath wd P = .ok fullPath)
    (hok : skip = true ∨ (validate P X).valid = true) :
    writeFileChecked wd ⟨P, X, skip⟩ fs =
      .ok (⟨true, "Successfully wrote " ++ P, none⟩, setFile fs fullPath X) ∧
    readFileChecked wd ⟨P⟩ (setFile fs fullPath X) = .ok ⟨true, X, none⟩ := by
  constructor
  · unfold writeFileChecked
    rw [hpath]
    rcases hok with hskip | hvalid
    · simp [hskip]
    · by_cases hsv : shouldValidate P = true
      · simp only [hsv]
        cases hskipb : skip
        · simp only [and_self, if_true, hvalid]
          simp
        · simp
      · simp [hsv]
  · unfold readFileChecked
    rw [hpath]
    dsimp only
    rw [getFileContent_setFile]

set_option maxHeartbeats 4000000 in
/-- Witness for C8 on a concrete write/read pair. -/
theorem write_then_read_roundtrip_witness :
    writeFileChecked "/sandbox" ⟨"src/app.js", "const a = 1;", false⟩ [] =
      .ok (⟨true, "Successfully wrote " ++ "src/app.js", none⟩,
        setFile [] "/sandbox/src/app.js" "const a = 1;") ∧
    readFileChecked "/sandbox" ⟨"src/app.js"⟩
        (setFile [] "/sandbox/src/app.js" "const a = 1;") =
      .ok ⟨true, "const a = 1;", none⟩ :=
  write_then_read_roundtrip "/sandbox" "src/app.js" "const a = 1;" false []
    "/sandbox/src/app.js" (by decide) (.inr (by decide))

set_option maxHeartbeats 4000000 in
/-- Counterexample to claim C9 as stated: on the content consisting of an
open brace, an open bracket, a close parenthesis, a close bracket and a
close brace, the scanner does not produce exactly one error — the first
mismatch desynchronizes the stack and two further errors cascade. -/
theorem checkBalancedDelimiters_single_mismatch_refuted :
    (checkBalancedDelimiters "\x7b [ ) ] \x7d").length ≠ 1 := by decide

set_option maxHeartbeats 8000000 in
/-- Claim C9 (amended): the scanner reports no error for balanced content;
exactly three errors — a mismatch followed by a cascading mismatch and an
unexpected-closer — for the mismatched content; exactly one unclosed error
for a lone opener; exactly one unexpected-closer error for a lone closer;
and no error when unbalanced delimiters sit inside a string literal. -/
theorem checkBalancedDelimiters_cases :
    checkBalancedDelimiters "\x7b [ ( ) ] \x7d" = []
    ∧ checkBalancedDelimiters "\x7b [ ) ] \x7d" =
        [mismatchMsg ']' '[' 1 ')' 1, mismatchMsg '\x7d' '\x7b' 1 ']' 1,
          unexpectedMsg '\x7d' 1 '\x7b']
    ∧ checkBalancedDelimiters "\x7b" = [unclosedMsg '\x7b' 1 '\x7d']
    ∧ checkBalancedDelimiters "\x7d" = [unexpectedMsg '\x7d' 1 '\x7b']
    ∧ checkBalancedDelimiters "const s = \"\x7b\"" = [] := by
  refine ⟨by decide, by decide, by decide, by decide, by decide⟩

/-- Claim C10: the command parser silently drops empty pipeline segments —
the segments are the non-empty trimmed pieces of the pipe split, so a
doubled pipe is accepted as a pipeline and handed to the shell rewritten
with a single pipe, and a segment trimming to empty never reaches the
empty-command check. -/
theorem parseCommand_drops_empty_segments :
    (∀ s t : String, t ∈ pipeSegs s → t ≠ "")
    ∧ (∀ s : String,
        pipeSegs s = ((splitOnChar '|' s).map strTrim).filter (fun t => t ≠ ""))
    ∧ parseCommand "ls || cat" = .ok ⟨"ls", [], true, ["ls", "cat"]⟩
    ∧ (∀ outcome : SpawnCall → ChildOutcome,
        runCommandChecked "/sandbox" ⟨"ls || cat", none⟩ true outcome =
          .ok (resultOfOutcome (outcome (.shell "ls | cat")), [SpawnCall.shell "ls | cat"]))
    ∧ hasDangerousChar "ls || cat" = false := by
  refine ⟨?_, fun s => rfl, by decide, fun outcome => rfl, by decide⟩
  intro s t ht
  unfold pipeSegs at ht
  have := (List.mem_filter.mp ht).2
  simpa using this

/-- Witness for C10: the surviving segments of a doubled pipe are
non-empty. -/
theorem parseCommand_drops_empty_segments_witness :
    ("ls" : String) ≠ "" :=
  parseCommand_drops_empty_segments.1 "ls || cat" "ls" (by decide)

end ThreejsWizard
